import Mathlib

/-!
# Verification of the CoursePlatform specification against its code

Shallow embedding, in Lean 4, of the parts of the CoursePlatform Django
application that the specification's claims are about:

* `users/models.py` — `PhoneVerification` (OTP record) with `is_valid` and
  `verify`;
* `courses/views.py` — `mark_lesson_complete`, `enroll_course_view`,
  `publish_course_view`;
* `authors/admin.py` — payout admin actions `approve_payouts`,
  `mark_completed`;
* `payments/admin.py` — transaction admin actions `mark_success`,
  `mark_failed`;
* `bot/main.py` — the messaging bot's `contact_handler`.

Database rows become Lean structures; a view that reads and writes rows
becomes a function from an explicit state to a new state plus its visible
response; timestamps are integers; monetary and percentage values are
rationals.  Queryset `filter(...).update(...)` calls become elementwise
maps over lists of rows.
-/

namespace CoursePlatform

/-! ## PhoneVerification (src/users/models.py, lines 160-241)

A `PhoneVerification` row carries the OTP code, a verified flag, an expiry
timestamp, an attempt counter and the soft-delete flag inherited from
`BaseModel`.  `timezone.now()` is passed in explicitly as `now : ℤ`. -/

structure PhoneVerification where
  otp_code : String
  is_verified : Bool
  expires_at : ℤ
  attempts : ℕ
  is_deleted : Bool
deriving Repr, DecidableEq

namespace PhoneVerification

def MAX_ATTEMPTS : ℕ := 3

def OTP_VALIDITY_MINUTES : ℕ := 5

/-- `is_valid` (users/models.py:219-226): not verified, attempts below
`MAX_ATTEMPTS`, not yet expired, not soft-deleted. -/
def is_valid (pv : PhoneVerification) (now : ℤ) : Bool :=
  !pv.is_verified && decide (pv.attempts < MAX_ATTEMPTS) &&
    decide (now < pv.expires_at) && !pv.is_deleted

/-- `verify` (users/models.py:228-241): increment `attempts` and save, then
check `is_valid` (on the already-incremented record), then compare the code.
Returns the persisted record together with the boolean result. -/
def verify (pv : PhoneVerification) (now : ℤ) (code : String) :
    PhoneVerification × Bool :=
  let pv1 := { pv with attempts := pv.attempts + 1 }
  if !pv1.is_valid now then
    (pv1, false)
  else if pv1.otp_code = code then
    ({ pv1 with is_verified := true }, true)
  else
    (pv1, false)

end PhoneVerification

/-! ## Lesson progress tracking (src/courses/views.py, lines 341-384;
src/courses/models.py, `CourseEnrollment` and `LessonProgress`)

The state seen by `mark_lesson_complete` for one enrollment: the ids of the
course's (non-deleted) lessons, the enrollment row, and the enrollment's
`LessonProgress` rows as an association list keyed by lesson id.  A lesson
id outside `lessons` models a lesson id that `get_object_or_404` cannot
resolve to a lesson of this course (404), or one whose course has no
enrollment for this student (403): in both cases the view writes nothing. -/

structure LessonProgress where
  completed : Bool
  watch_percentage : ℚ
deriving Repr, DecidableEq

structure CourseEnrollment where
  price_paid : ℚ
  progress_percentage : ℚ
  completed : Bool
  completed_at : Option ℤ
  certificate_issued : Bool
deriving Repr, DecidableEq

structure ProgressState where
  lessons : List ℕ
  enrollment : CourseEnrollment
  progress : List (ℕ × LessonProgress)
deriving Repr, DecidableEq

/-- The enrollment's `LessonProgress` row for lesson `l`, if any
(`LessonProgress.objects.get_or_create` lookup key). -/
def lookupProgress (p : List (ℕ × LessonProgress)) (l : ℕ) :
    Option LessonProgress :=
  (p.find? (fun x => x.1 = l)).map (·.2)

/-- courses/views.py:360-369: `get_or_create` with defaults
`completed=True, watch_percentage=100`, and on an existing row the same two
fields are set and saved. -/
def setComplete (p : List (ℕ × LessonProgress)) (l : ℕ) :
    List (ℕ × LessonProgress) :=
  if (p.find? (fun x => x.1 = l)).isSome then
    p.map (fun x =>
      if x.1 = l then (x.1, { x.2 with completed := true, watch_percentage := 100 })
      else x)
  else
    p ++ [(l, { completed := true, watch_percentage := 100 })]

/-- courses/views.py:373-376:
`LessonProgress.objects.filter(enrollment=enrollment, completed=True).count()`. -/
def completedLessonsCount (p : List (ℕ × LessonProgress)) : ℕ :=
  (p.filter (fun x => x.2.completed)).length

/-- `mark_lesson_complete` (courses/views.py:341-384): set the lesson's
progress row to completed with `watch_percentage` 100, then recompute the
enrollment's `progress_percentage` as
`(completed_lessons / total_lessons) * 100 if total_lessons > 0 else 0`. -/
def mark_lesson_complete (st : ProgressState) (l : ℕ) : ProgressState :=
  if l ∈ st.lessons then
    let p := setComplete st.progress l
    let total := st.lessons.length
    let completed := completedLessonsCount p
    let pct : ℚ := if 0 < total then (completed : ℚ) / (total : ℚ) * 100 else 0
    { st with
        progress := p,
        enrollment := { st.enrollment with progress_percentage := pct } }
  else st

/-- Marking every lesson of the course complete, one
`mark_lesson_complete` request per lesson. -/
def markAllLessonsComplete (st : ProgressState) : ProgressState :=
  st.lessons.foldl mark_lesson_complete st

/-- Lesson `l` has a completed progress row in `p`. -/
def completedAt (p : List (ℕ × LessonProgress)) (l : ℕ) : Prop :=
  ∃ r, lookupProgress p l = some r ∧ r.completed = true

instance (p : List (ℕ × LessonProgress)) (l : ℕ) :
    Decidable (completedAt p l) := by
  unfold completedAt
  exact inferInstance

/-! ## Course enrollment (src/courses/views.py:253-279,
src/courses/models.py `CourseStatus`, `CourseEnrollment.Meta`)

`CourseEnrollment.Meta` declares `unique_together = [['course', 'student']]`,
so for a fixed course the enrollment rows form an association list keyed by
student id. -/

inductive CourseStatus where
  | DRAFT | PENDING | PUBLISHED | REJECTED | ARCHIVED
deriving Repr, DecidableEq

structure Course where
  price : ℚ
  status : CourseStatus
  enrollment_count : ℕ
deriving Repr, DecidableEq

structure EnrollState where
  course : Course
  enrollments : List (ℕ × CourseEnrollment)
deriving Repr, DecidableEq

/-- A fresh `CourseEnrollment` row as `get_or_create` builds it: `price_paid`
from the defaults, every other field at its model default. -/
def newEnrollment (price : ℚ) : CourseEnrollment :=
  { price_paid := price, progress_percentage := 0, completed := false,
    completed_at := none, certificate_issued := false }

/-- `enroll_course_view` (courses/views.py:253-279): 404 unless the course is
`PUBLISHED`; `get_or_create` on the `(course, student)` key with default
`price_paid = course.price`; only on creation is `enrollment_count`
incremented.  Returns the new state, the enrollment row handed back to the
view, and the `created` flag. -/
def enroll_course_view (st : EnrollState) (student : ℕ) :
    EnrollState × Option CourseEnrollment × Bool :=
  if st.course.status = CourseStatus.PUBLISHED then
    match st.enrollments.find? (fun x => x.1 = student) with
    | some e => (st, some e.2, false)
    | none =>
        let e := newEnrollment st.course.price
        ({ course := { st.course with
              enrollment_count := st.course.enrollment_count + 1 },
           enrollments := st.enrollments ++ [(student, e)] },
         some e, true)
  else (st, none, false)

/-! ## Course publication (src/courses/views.py:589-612)

A course as `publish_course_view` sees it: its status and its (non-deleted)
modules, each module carrying the ids of its (non-deleted) lessons. -/

structure CourseContent where
  status : CourseStatus
  modules : List (List ℕ)
deriving Repr, DecidableEq

/-- `publish_course_view` (courses/views.py:589-612): error and no change
when the course has no modules; error and no change when no module has a
lesson; otherwise set the status to `PENDING`.  The second component is the
user-visible error message, `none` on success. -/
def publish_course_view (c : CourseContent) : CourseContent × Option String :=
  if c.modules.isEmpty then
    (c, some "Course must have at least one module before publishing.")
  else if !(c.modules.any (fun m => !m.isEmpty)) then
    (c, some "Course modules must have at least one lesson before publishing.")
  else
    ({ c with status := CourseStatus.PENDING }, none)

/-! ## Author payouts (src/authors/models.py `PayoutStatus`,
src/authors/admin.py:246-267)

The admin actions run `queryset.filter(status=...).update(...)`: every
selected row in the source status is updated, every other row is untouched.
A queryset is a list of rows, the admin's selection a `Bool` per row. -/

inductive PayoutStatus where
  | PENDING | PROCESSING | COMPLETED | FAILED | REJECTED
deriving Repr, DecidableEq

structure AuthorPayout where
  status : PayoutStatus
  processed_by : Option ℕ
deriving Repr, DecidableEq

/-- Effect of `approve_payouts` (authors/admin.py:246-252) on one row:
selected rows with status `PENDING` move to `PROCESSING` and get
`processed_by = request.user`; all others are unchanged. -/
def approvePayoutRow (admin : ℕ) (sel : Bool) (p : AuthorPayout) :
    AuthorPayout :=
  if sel && (p.status = PayoutStatus.PENDING) then
    { p with status := PayoutStatus.PROCESSING, processed_by := some admin }
  else p

/-- `approve_payouts` over the whole table with the admin's selection. -/
def approve_payouts (admin : ℕ) (rows : List (AuthorPayout × Bool)) :
    List AuthorPayout :=
  rows.map (fun x => approvePayoutRow admin x.2 x.1)

/-- Effect of `mark_completed` (authors/admin.py:262-267) on one row:
selected rows with status `PROCESSING` move to `COMPLETED`; all others are
unchanged. -/
def completePayoutRow (sel : Bool) (p : AuthorPayout) : AuthorPayout :=
  if sel && (p.status = PayoutStatus.PROCESSING) then
    { p with status := PayoutStatus.COMPLETED }
  else p

/-- `mark_completed` over the whole table with the admin's selection. -/
def mark_completed (rows : List (AuthorPayout × Bool)) : List AuthorPayout :=
  rows.map (fun x => completePayoutRow x.2 x.1)

/-! ## Transactions (src/payments/models.py `TransactionStatus`,
src/payments/admin.py:138-152) -/

inductive TransactionStatus where
  | PENDING | SUCCESS | FAILED | REFUNDED | CANCELLED
deriving Repr, DecidableEq

structure Transaction where
  status : TransactionStatus
  completed_at : Option ℤ
deriving Repr, DecidableEq

/-- Effect of `mark_success` (payments/admin.py:138-145) on one row:
selected rows with status `PENDING` move to `SUCCESS` and get
`completed_at = timezone.now()`; all others are unchanged. -/
def markSuccessRow (now : ℤ) (sel : Bool) (t : Transaction) : Transaction :=
  if sel && (t.status = TransactionStatus.PENDING) then
    { t with status := TransactionStatus.SUCCESS, completed_at := some now }
  else t

/-- `mark_success` over the whole table with the admin's selection. -/
def mark_success (now : ℤ) (rows : List (Transaction × Bool)) :
    List Transaction :=
  rows.map (fun x => markSuccessRow now x.2 x.1)

/-- Effect of `mark_failed` (payments/admin.py:147-152) on one row:
selected rows with status `PENDING` move to `FAILED`; all others are
unchanged. -/
def markFailedRow (sel : Bool) (t : Transaction) : Transaction :=
  if sel && (t.status = TransactionStatus.PENDING) then
    { t with status := TransactionStatus.FAILED }
  else t

/-- `mark_failed` over the whole table with the admin's selection. -/
def mark_failed (rows : List (Transaction × Bool)) : List Transaction :=
  rows.map (fun x => markFailedRow x.2 x.1)

/-! ## Messaging bot (src/bot/main.py:57-101, src/bot/functions.py) -/

structure BotUser where
  id : ℕ
  phone_number : String
  telegram_id : Option ℤ
deriving Repr, DecidableEq

/-- Modelled from the spec: `OtpService.get_otp` lives in the `utils` module,
which is not under `src/`; per spec §6 the OTP store is "a transient
key-value store for OTP codes ... (expiring entries keyed by phone number
and purpose)", so `get_otp` is a lookup keyed by phone number and purpose
returning the pending code, if any. -/
structure OtpStore where
  get_otp : String → String → Option String

structure BotState where
  users : List BotUser
  otp : OtpStore

/-- The messages `contact_handler` can answer with. -/
inductive BotReply where
  | loginCode (code : String)
  | accountLinked
  | registrationCode (code : String)
  | noPendingRegistration
deriving Repr, DecidableEq

/-- bot/main.py:63-66: keep only the digits of the shared phone number. -/
def normalizePhone (s : String) : String :=
  String.mk (s.toList.filter Char.isDigit)

/-- Python truthiness of the nullable integer `user.telegram_id`:
`not user.telegram_id` is true when the field is NULL or 0. -/
def telegramIdTruthy (t : Option ℤ) : Bool :=
  match t with
  | none => false
  | some v => v != 0

/-- `set_telegram_id_if_null` (bot/functions.py:18-23):
`User.objects.filter(id=user_id, telegram_id__isnull=True).update(telegram_id=telegram_id)`. -/
def set_telegram_id_if_null (users : List BotUser) (user_id : ℕ)
    (telegram_id : ℤ) : List BotUser :=
  users.map (fun u =>
    if u.id = user_id ∧ u.telegram_id = none then
      { u with telegram_id := some telegram_id }
    else u)

/-- `get_user_by_phone` (bot/functions.py:26-27):
`User.objects.filter(phone_number=phone).first()`. -/
def get_user_by_phone (users : List BotUser) (phone : String) :
    Option BotUser :=
  users.find? (fun u => u.phone_number = phone)

/-- `contact_handler` (bot/main.py:57-101): normalize the shared phone
number; when a user with that phone exists, link the sender's messaging
account id if `telegram_id` is unset, then send the pending login OTP or an
account-linked message; when no user exists, send the pending registration
OTP or a no-pending-registration message.  Returns the new user table and
the reply. -/
def contact_handler (st : BotState) (contact_phone : String)
    (sender_id : ℤ) : List BotUser × BotReply :=
  let phone := normalizePhone contact_phone
  match get_user_by_phone st.users phone with
  | some user =>
      let users' :=
        if ¬ telegramIdTruthy user.telegram_id then
          set_telegram_id_if_null st.users user.id sender_id
        else st.users
      match st.otp.get_otp phone "login" with
      | some code => (users', BotReply.loginCode code)
      | none => (users', BotReply.accountLinked)
  | none =>
      match st.otp.get_otp phone "register" with
      | some code => (st.users, BotReply.registrationCode code)
      | none => (st.users, BotReply.noPendingRegistration)

end CoursePlatform

namespace CoursePlatform

/-! ## Claims C2, C3, C4 -/

/-- A concrete OTP record exercising the claims: two attempts already made,
unverified, live, not deleted. -/
def pvTwoAttempts : PhoneVerification :=
  { otp_code := "123456", is_verified := false, expires_at := 300,
    attempts := 2, is_deleted := false }

/-- A concrete progress state: a course of two lessons, a fresh enrollment,
no progress rows yet. -/
def progressState0 : ProgressState :=
  { lessons := [1, 2], enrollment := newEnrollment 0, progress := [] }

/-- A concrete enrollment state: a published course nobody is enrolled in. -/
def enrollState0 : EnrollState :=
  { course := { price := 50, status := CourseStatus.PUBLISHED,
                enrollment_count := 0 },
    enrollments := [] }

/-- A concrete bot state: no user has the shared phone number, and a
registration OTP is pending for it. -/
def botStateNoUsers : BotState :=
  { users := [],
    otp := ⟨fun phone purpose =>
      if phone = "998901234567" && purpose = "register" then some "654321"
      else none⟩ }

/-- C2 (as stated) is false: `pvTwoAttempts` is unverified, not deleted,
unexpired at time 0 and has `attempts = 2 < 3`, yet `verify` with the
stored code returns `false` and does not mark the record verified, because
`verify` increments `attempts` to 3 before checking `is_valid`. -/
theorem C2_counterexample :
    pvTwoAttempts.is_verified = false ∧
    pvTwoAttempts.is_deleted = false ∧
    (0 : ℤ) < pvTwoAttempts.expires_at ∧
    pvTwoAttempts.attempts < PhoneVerification.MAX_ATTEMPTS ∧
    (pvTwoAttempts.verify 0 pvTwoAttempts.otp_code).2 = false ∧
    (pvTwoAttempts.verify 0 pvTwoAttempts.otp_code).1.is_verified = false := by
  decide

/-- C2 (amended): for every `PhoneVerification` record that is unverified,
not soft-deleted, whose expiry timestamp is still in the future, and whose
attempt counter after the increment performed by the call is still under 3
(`attempts + 1 < MAX_ATTEMPTS`, i.e. at most one prior attempt), calling
`verify` with the stored (correct) code returns `true` and marks the record
verified. -/
theorem C2_verify_correct_code_succeeds (pv : PhoneVerification) (now : ℤ)
    (hv : pv.is_verified = false) (hd : pv.is_deleted = false)
    (he : now < pv.expires_at)
    (ha : pv.attempts + 1 < PhoneVerification.MAX_ATTEMPTS) :
    (pv.verify now pv.otp_code).2 = true ∧
    (pv.verify now pv.otp_code).1.is_verified = true := by
  simp [PhoneVerification.verify, PhoneVerification.is_valid, hv, hd, he, ha]

/-- Witness for `C2_verify_correct_code_succeeds` at a concrete record with
one prior attempt. -/
theorem C2_verify_correct_code_succeeds_witness :
    (({ otp_code := "111111", is_verified := false, expires_at := 300,
        attempts := 1, is_deleted := false } :
      PhoneVerification).verify 0 "111111").2 = true ∧
    (({ otp_code := "111111", is_verified := false, expires_at := 300,
        attempts := 1, is_deleted := false } :
      PhoneVerification).verify 0 "111111").1.is_verified = true :=
  C2_verify_correct_code_succeeds
    { otp_code := "111111", is_verified := false, expires_at := 300,
      attempts := 1, is_deleted := false } 0 rfl rfl (by decide) (by decide)

/-- C3: for every record whose attempt counter already equals
`MAX_ATTEMPTS = 3`, `verify` returns `false` for every supplied code
(including the correct one) and leaves the verified flag exactly as it was,
so the call never marks the record verified. -/
theorem C3_exhausted_attempts_always_fail (pv : PhoneVerification)
    (now : ℤ) (code : String)
    (ha : pv.attempts = PhoneVerification.MAX_ATTEMPTS) :
    (pv.verify now code).2 = false ∧
    (pv.verify now code).1.is_verified = pv.is_verified := by
  have hlt : ¬ pv.attempts + 1 < PhoneVerification.MAX_ATTEMPTS := by
    omega
  simp [PhoneVerification.verify, PhoneVerification.is_valid, hlt]

/-- Witness for `C3_exhausted_attempts_always_fail`: a live, unverified
record with exactly 3 attempts still rejects the correct code. -/
theorem C3_exhausted_attempts_always_fail_witness :
    (({ otp_code := "222222", is_verified := false, expires_at := 300,
        attempts := 3, is_deleted := false } :
      PhoneVerification).verify 0 "222222").2 = false ∧
    (({ otp_code := "222222", is_verified := false, expires_at := 300,
        attempts := 3, is_deleted := false } :
      PhoneVerification).verify 0 "222222").1.is_verified = false :=
  C3_exhausted_attempts_always_fail
    { otp_code := "222222", is_verified := false, expires_at := 300,
      attempts := 3, is_deleted := false } 0 "222222" rfl

/-- C4: every call to `verify` increases the persisted record's `attempts`
counter by exactly 1, regardless of the supplied code, of expiry, of the
verified flag, and of whether the verification succeeds. -/
theorem C4_verify_always_consumes_attempt (pv : PhoneVerification)
    (now : ℤ) (code : String) :
    (pv.verify now code).1.attempts = pv.attempts + 1 := by
  unfold PhoneVerification.verify
  dsimp only
  split
  · rfl
  · split <;> rfl

/-! ## Claim C5 -/

/-- C5: enrolling the same student in the same published course twice is
idempotent: the second `enroll_course_view` call returns the very same
enrollment row, reports `created = false`, and leaves the state completely
unchanged — no duplicate row, `price_paid` untouched, `enrollment_count`
not incremented a second time. -/
theorem C5_enroll_idempotent (st : EnrollState) (student : ℕ)
    (hpub : st.course.status = CourseStatus.PUBLISHED) :
    (enroll_course_view (enroll_course_view st student).1 student).1 =
      (enroll_course_view st student).1 ∧
    (enroll_course_view (enroll_course_view st student).1 student).2.1 =
      (enroll_course_view st student).2.1 ∧
    (enroll_course_view (enroll_course_view st student).1 student).2.2 =
      false := by
  cases hfind : st.enrollments.find? (fun x => x.1 = student) with
  | some e =>
      simp [enroll_course_view, hpub, hfind]
  | none =>
      simp [enroll_course_view, hpub, hfind, List.find?_append, List.find?]

/-- Witness for `C5_enroll_idempotent` on a concrete published course. -/
theorem C5_enroll_idempotent_witness :
    enrollState0.course.status = CourseStatus.PUBLISHED ∧
    ((enroll_course_view (enroll_course_view enrollState0 7).1 7).1 =
        (enroll_course_view enrollState0 7).1 ∧
      (enroll_course_view (enroll_course_view enrollState0 7).1 7).2.1 =
        (enroll_course_view enrollState0 7).2.1 ∧
      (enroll_course_view (enroll_course_view enrollState0 7).1 7).2.2 =
        false) :=
  ⟨rfl, C5_enroll_idempotent enrollState0 7 rfl⟩

/-! ## Claim C6 -/

/-- C6: submitting a course for publication fails with a user-visible error
and leaves the course unchanged when there is no module containing a lesson
(in particular when there are zero modules); the status is changed to
`PENDING` exactly when at least one module has at least one lesson. -/
theorem C6_publish_requires_content (c : CourseContent) :
    (¬ (∃ m ∈ c.modules, m ≠ []) →
      (publish_course_view c).2.isSome = true ∧
      (publish_course_view c).1 = c) ∧
    ((∃ m ∈ c.modules, m ≠ []) →
      (publish_course_view c).1.status = CourseStatus.PENDING ∧
      (publish_course_view c).2 = none) := by
  have hiff : (c.modules.any fun m => !m.isEmpty) = true ↔
      ∃ m ∈ c.modules, m ≠ [] := by
    simp [List.any_eq_true]
  constructor
  · intro h
    have h2 : (c.modules.any fun m => !m.isEmpty) = false := by
      rw [← Bool.not_eq_true, hiff]
      exact h
    by_cases h1 : c.modules.isEmpty <;>
      simp [publish_course_view, h1, h2]
  · intro h
    have h2 : (c.modules.any fun m => !m.isEmpty) = true := hiff.mpr h
    have h1 : c.modules.isEmpty = false := by
      rcases h with ⟨m, hm, -⟩
      rw [← Bool.not_eq_true, List.isEmpty_iff]
      intro hnil
      rw [hnil] at hm
      exact (List.not_mem_nil m) hm
    simp [publish_course_view, h1, h2]

/-- Witness for `C6_publish_requires_content`: a draft course with one
module holding one lesson is moved to `PENDING` with no error. -/
theorem C6_publish_requires_content_witness :
    (∃ m ∈ ({ status := CourseStatus.DRAFT, modules := [[1]] } :
        CourseContent).modules, m ≠ []) ∧
    (publish_course_view
        { status := CourseStatus.DRAFT, modules := [[1]] }).1.status =
      CourseStatus.PENDING ∧
    (publish_course_view
        { status := CourseStatus.DRAFT, modules := [[1]] }).2 = none :=
  ⟨by decide,
    (C6_publish_requires_content
      { status := CourseStatus.DRAFT, modules := [[1]] }).2 (by decide)⟩

/-! ## Claim C7 -/

/-- C7: payout lifecycle under the admin actions. `approve_payouts` is the
elementwise action moving exactly the selected `PENDING` rows to
`PROCESSING` while stamping `processed_by` with the approving admin;
`mark_completed` moves exactly the selected `PROCESSING` rows to
`COMPLETED`; every row not selected or not in the required source status is
left unchanged; and a `PENDING` row never reaches `COMPLETED` in one of
these steps. -/
theorem C7_payout_lifecycle (admin : ℕ) (rows : List (AuthorPayout × Bool))
    (p : AuthorPayout) (sel : Bool) :
    approve_payouts admin rows =
      rows.map (fun x => approvePayoutRow admin x.2 x.1) ∧
    mark_completed rows = rows.map (fun x => completePayoutRow x.2 x.1) ∧
    (sel = true → p.status = PayoutStatus.PENDING →
      approvePayoutRow admin sel p =
        { p with status := PayoutStatus.PROCESSING,
                 processed_by := some admin }) ∧
    (¬ (sel = true ∧ p.status = PayoutStatus.PENDING) →
      approvePayoutRow admin sel p = p) ∧
    (sel = true → p.status = PayoutStatus.PROCESSING →
      completePayoutRow sel p = { p with status := PayoutStatus.COMPLETED }) ∧
    (¬ (sel = true ∧ p.status = PayoutStatus.PROCESSING) →
      completePayoutRow sel p = p) ∧
    (p.status = PayoutStatus.PENDING →
      (completePayoutRow sel p).status = PayoutStatus.PENDING ∧
      (approvePayoutRow admin sel p).status ≠ PayoutStatus.COMPLETED) := by
  refine ⟨rfl, rfl, ?_, ?_, ?_, ?_, ?_⟩
  · intro hs hp
    simp [approvePayoutRow, hs, hp]
  · intro h
    cases sel <;> simp_all [approvePayoutRow]
  · intro hs hp
    simp [completePayoutRow, hs, hp]
  · intro h
    cases sel <;> simp_all [completePayoutRow]
  · intro hp
    cases sel <;> simp_all [completePayoutRow, approvePayoutRow]

/-- Witness for `C7_payout_lifecycle` on a concrete pending payout. -/
theorem C7_payout_lifecycle_witness :
    (({ status := PayoutStatus.PENDING, processed_by := none } :
        AuthorPayout).status = PayoutStatus.PENDING) ∧
    approvePayoutRow 1 true
        { status := PayoutStatus.PENDING, processed_by := none } =
      { status := PayoutStatus.PROCESSING, processed_by := some 1 } ∧
    (completePayoutRow true
        { status := PayoutStatus.PENDING, processed_by := none }).status =
      PayoutStatus.PENDING :=
  ⟨rfl,
    (C7_payout_lifecycle 1 []
      { status := PayoutStatus.PENDING, processed_by := none } true).2.2.1
      rfl rfl,
    ((C7_payout_lifecycle 1 []
      { status := PayoutStatus.PENDING, processed_by := none }
      true).2.2.2.2.2.2 rfl).1⟩

/-! ## Claim C8 -/

/-- C8: a transaction is immutable once completed under the admin status
operations. `mark_success` is the elementwise action moving exactly the
selected `PENDING` rows to `SUCCESS` while stamping `completed_at`;
`mark_failed` moves exactly the selected `PENDING` rows to `FAILED`; a row
whose status is not `PENDING` (i.e. already `SUCCESS`, `FAILED`,
`REFUNDED` or `CANCELLED`) is left entirely unchanged by both. -/
theorem C8_transaction_immutable (now : ℤ)
    (rows : List (Transaction × Bool)) (t : Transaction) (sel : Bool) :
    mark_success now rows =
      rows.map (fun x => markSuccessRow now x.2 x.1) ∧
    mark_failed rows = rows.map (fun x => markFailedRow x.2 x.1) ∧
    (sel = true → t.status = TransactionStatus.PENDING →
      markSuccessRow now sel t =
        { t with status := TransactionStatus.SUCCESS,
                 completed_at := some now }) ∧
    (sel = true → t.status = TransactionStatus.PENDING →
      markFailedRow sel t = { t with status := TransactionStatus.FAILED }) ∧
    (t.status ≠ TransactionStatus.PENDING →
      markSuccessRow now sel t = t ∧ markFailedRow sel t = t) := by
  refine ⟨rfl, rfl, ?_, ?_, ?_⟩
  · intro hs hp
    simp [markSuccessRow, hs, hp]
  · intro hs hp
    simp [markFailedRow, hs, hp]
  · intro h
    cases sel <;> simp_all [markSuccessRow, markFailedRow]

/-- Witness for `C8_transaction_immutable`: a refunded transaction is
untouched by both actions. -/
theorem C8_transaction_immutable_witness :
    (({ status := TransactionStatus.REFUNDED, completed_at := some 5 } :
        Transaction).status ≠ TransactionStatus.PENDING) ∧
    markSuccessRow 9 true
        { status := TransactionStatus.REFUNDED, completed_at := some 5 } =
      { status := TransactionStatus.REFUNDED, completed_at := some 5 } ∧
    markFailedRow true
        { status := TransactionStatus.REFUNDED, completed_at := some 5 } =
      { status := TransactionStatus.REFUNDED, completed_at := some 5 } :=
  ⟨by decide,
    (C8_transaction_immutable 9 []
      { status := TransactionStatus.REFUNDED, completed_at := some 5 }
      true).2.2.2.2 (by decide)⟩

/-! ## Claim C9 -/

/-- `find?` only looks at the predicate's values on the list. -/
theorem find?_congr_pred {α : Type} (l : List α) (p q : α → Bool)
    (h : ∀ x ∈ l, p x = q x) : l.find? p = l.find? q := by
  induction l with
  | nil => rfl
  | cons a as ih =>
      have ha := h a (List.mem_cons_self a as)
      by_cases hp : p a = true
      · rw [List.find?_cons_of_pos _ hp, List.find?_cons_of_pos _ (ha ▸ hp)]
      · rw [List.find?_cons_of_neg _ hp,
          List.find?_cons_of_neg _ (fun hq => hp (ha ▸ hq)),
          ih (fun x hx => h x (List.mem_cons_of_mem a hx))]

/-- `set_telegram_id_if_null` changes no user's id or phone number. -/
theorem set_telegram_id_preserves_id_phone (users : List BotUser)
    (uid : ℕ) (sid : ℤ) :
    (set_telegram_id_if_null users uid sid).map
        (fun u => (u.id, u.phone_number)) =
      users.map (fun u => (u.id, u.phone_number)) := by
  unfold set_telegram_id_if_null
  rw [List.map_map]
  apply List.map_congr_left
  intro u _
  by_cases h : u.id = uid ∧ u.telegram_id = none <;> simp [h]

/-- Looking a user up by phone after `set_telegram_id_if_null` finds the
same user, with `telegram_id` filled in when the update hit them. -/
theorem get_user_by_phone_after_link (users : List BotUser) (phone : String)
    (uid : ℕ) (sid : ℤ) (u : BotUser)
    (hu : get_user_by_phone users phone = some u) :
    get_user_by_phone (set_telegram_id_if_null users uid sid) phone =
      some (if u.id = uid ∧ u.telegram_id = none then
        { u with telegram_id := some sid } else u) := by
  unfold get_user_by_phone set_telegram_id_if_null at *
  rw [List.find?_map]
  rw [find?_congr_pred _ _ (fun x => x.phone_number = phone)
    (fun x _ => by
      by_cases hc : x.id = uid ∧ x.telegram_id = none <;>
        simp [Function.comp, hc])]
  rw [hu]
  rfl

/-- C9 (as stated) is false at a concrete input: with no user for the
shared phone number and a pending registration OTP, `contact_handler`
relays the OTP but creates no user record — the user table stays empty and
a lookup for the shared phone number still finds nobody. -/
theorem C9_counterexample :
    (contact_handler botStateNoUsers "+998 90 123-45-67" 42).2 =
      BotReply.registrationCode "654321" ∧
    (contact_handler botStateNoUsers "+998 90 123-45-67" 42).1 = [] ∧
    get_user_by_phone
      (contact_handler botStateNoUsers "+998 90 123-45-67" 42).1
      (normalizePhone "+998 90 123-45-67") = none :=
  ⟨rfl, rfl, rfl⟩

/-- C9 (amended): on a contact share the bot looks up (but never creates) a
user for the normalized phone number; the handler leaves every user's id
and phone number unchanged; for an existing user it sends the pending
login OTP when one exists and an account-linked message otherwise, and
when the user's `telegram_id` is unset it links the sender's messaging
account id to them; for an unknown number it sends the pending
registration OTP when one exists and a no-pending-registration message
otherwise, leaving the user table untouched. -/
theorem C9_contact_handler_behaviour (st : BotState) (cp : String)
    (sid : ℤ) :
    ((contact_handler st cp sid).1.map (fun u => (u.id, u.phone_number)) =
      st.users.map (fun u => (u.id, u.phone_number))) ∧
    (∀ u, get_user_by_phone st.users (normalizePhone cp) = some u →
      ((∀ code, st.otp.get_otp (normalizePhone cp) "login" = some code →
          (contact_handler st cp sid).2 = BotReply.loginCode code) ∧
        (st.otp.get_otp (normalizePhone cp) "login" = none →
          (contact_handler st cp sid).2 = BotReply.accountLinked) ∧
        (u.telegram_id = none →
          get_user_by_phone (contact_handler st cp sid).1
              (normalizePhone cp) =
            some { u with telegram_id := some sid }))) ∧
    (get_user_by_phone st.users (normalizePhone cp) = none →
      (contact_handler st cp sid).1 = st.users ∧
      (∀ code, st.otp.get_otp (normalizePhone cp) "register" = some code →
          (contact_handler st cp sid).2 = BotReply.registrationCode code) ∧
      (st.otp.get_otp (normalizePhone cp) "register" = none →
          (contact_handler st cp sid).2 = BotReply.noPendingRegistration)) := by
  refine ⟨?_, ?_, ?_⟩
  · cases hu : get_user_by_phone st.users (normalizePhone cp) with
    | none =>
        cases hotp : st.otp.get_otp (normalizePhone cp) "register" <;>
          simp [contact_handler, hu, hotp]
    | some u =>
        cases hotp : st.otp.get_otp (normalizePhone cp) "login" <;>
          by_cases ht : telegramIdTruthy u.telegram_id <;>
            simp [contact_handler, hu, hotp, ht,
              set_telegram_id_preserves_id_phone]
  · intro u hu
    refine ⟨?_, ?_, ?_⟩
    · intro code hotp
      simp [contact_handler, hu, hotp]
    · intro hotp
      simp [contact_handler, hu, hotp]
    · intro hnull
      have ht : telegramIdTruthy u.telegram_id = false := by
        rw [hnull]; rfl
      have hlink := get_user_by_phone_after_link st.users
        (normalizePhone cp) u.id sid u hu
      rw [if_pos ⟨rfl, hnull⟩] at hlink
      cases hotp : st.otp.get_otp (normalizePhone cp) "login" <;>
        simpa [contact_handler, hu, hotp, ht] using hlink
  · intro hu
    refine ⟨?_, ?_, ?_⟩
    · cases hotp : st.otp.get_otp (normalizePhone cp) "register" <;>
        simp [contact_handler, hu, hotp]
    · intro code hotp
      simp [contact_handler, hu, hotp]
    · intro hotp
      simp [contact_handler, hu, hotp]

/-- Witness for `C9_contact_handler_behaviour`: the concrete no-user state
with a pending registration OTP gets the OTP relayed with no change to the
user table. -/
theorem C9_contact_handler_behaviour_witness :
    get_user_by_phone botStateNoUsers.users
        (normalizePhone "+998 90 123-45-67") = none ∧
    ((contact_handler botStateNoUsers "+998 90 123-45-67" 42).1 =
        botStateNoUsers.users ∧
      (∀ code,
        botStateNoUsers.otp.get_otp (normalizePhone "+998 90 123-45-67")
            "register" = some code →
          (contact_handler botStateNoUsers "+998 90 123-45-67" 42).2 =
            BotReply.registrationCode code) ∧
      (botStateNoUsers.otp.get_otp (normalizePhone "+998 90 123-45-67")
          "register" = none →
        (contact_handler botStateNoUsers "+998 90 123-45-67" 42).2 =
          BotReply.noPendingRegistration)) :=
  ⟨rfl,
    (C9_contact_handler_behaviour botStateNoUsers "+998 90 123-45-67"
      42).2.2 rfl⟩

/-! ## Claim C10 -/

/-- C10: `mark_lesson_complete` touches only the progress rows and the
enrollment's `progress_percentage`: the enrollment's `completed` flag,
`completed_at` timestamp, `certificate_issued` flag and `price_paid` are
never changed by it, even when the percentage reaches exactly 100; and
enrollment rows created by `enroll_course_view` start with `completed`
false, `completed_at` unset and `certificate_issued` false, so no modelled
operation ever marks an enrollment as completed. -/
theorem C10_mark_lesson_complete_frame (st : ProgressState) (l : ℕ)
    (est : EnrollState) (s : ℕ) :
    (mark_lesson_complete st l).lessons = st.lessons ∧
    (mark_lesson_complete st l).enrollment.completed =
      st.enrollment.completed ∧
    (mark_lesson_complete st l).enrollment.completed_at =
      st.enrollment.completed_at ∧
    (mark_lesson_complete st l).enrollment.certificate_issued =
      st.enrollment.certificate_issued ∧
    (mark_lesson_complete st l).enrollment.price_paid =
      st.enrollment.price_paid ∧
    (∀ x ∈ (enroll_course_view est s).1.enrollments,
      x ∈ est.enrollments ∨
        (x.2.completed = false ∧ x.2.completed_at = none ∧
          x.2.certificate_issued = false)) := by
  refine ⟨?_, ?_, ?_, ?_, ?_, ?_⟩
  · unfold mark_lesson_complete; split <;> rfl
  · unfold mark_lesson_complete; split <;> rfl
  · unfold mark_lesson_complete; split <;> rfl
  · unfold mark_lesson_complete; split <;> rfl
  · unfold mark_lesson_complete; split <;> rfl
  · intro x hx
    unfold enroll_course_view at hx
    by_cases hpub : est.course.status = CourseStatus.PUBLISHED
    · rw [if_pos hpub] at hx
      cases hfind : est.enrollments.find? (fun y => y.1 = s) with
      | some e =>
          rw [hfind] at hx
          exact Or.inl hx
      | none =>
          rw [hfind] at hx
          simp only [List.mem_append, List.mem_singleton] at hx
          cases hx with
          | inl h => exact Or.inl h
          | inr h =>
              right
              rw [h]
              exact ⟨rfl, rfl, rfl⟩
    · rw [if_neg hpub] at hx
      exact Or.inl hx

/-- Witness for `C10_mark_lesson_complete_frame` at concrete states. -/
theorem C10_mark_lesson_complete_frame_witness :
    (mark_lesson_complete progressState0 1).enrollment.completed =
      progressState0.enrollment.completed ∧
    (mark_lesson_complete progressState0 1).enrollment.completed_at =
      progressState0.enrollment.completed_at ∧
    (mark_lesson_complete progressState0 1).enrollment.certificate_issued =
      progressState0.enrollment.certificate_issued :=
  ⟨(C10_mark_lesson_complete_frame progressState0 1 enrollState0 7).2.1,
    (C10_mark_lesson_complete_frame progressState0 1 enrollState0 7).2.2.1,
    (C10_mark_lesson_complete_frame progressState0 1
      enrollState0 7).2.2.2.1⟩

/-! ## Claim C1: helper lemmas about `setComplete` -/

/-- After `setComplete p l`, lesson `l`'s row is completed with
`watch_percentage` 100. -/
theorem lookupProgress_setComplete_self (p : List (ℕ × LessonProgress))
    (l : ℕ) :
    lookupProgress (setComplete p l) l =
      some { completed := true, watch_percentage := 100 } := by
  unfold setComplete lookupProgress
  by_cases h : (p.find? (fun x => x.1 = l)).isSome
  · rw [if_pos h, List.find?_map,
      find?_congr_pred p _ (fun x => x.1 = l)
        (fun x _ => by by_cases hx : x.1 = l <;> simp [Function.comp, hx])]
    obtain ⟨e, he⟩ := Option.isSome_iff_exists.mp h
    have he1 : e.1 = l := by simpa using List.find?_some he
    rw [he]
    simp [he1]
  · rw [if_neg h, List.find?_append,
      Option.not_isSome_iff_eq_none.mp h]
    simp

/-- `setComplete p l` leaves every other lesson's row unchanged. -/
theorem lookupProgress_setComplete_other (p : List (ℕ × LessonProgress))
    (l x : ℕ) (hx : x ≠ l) :
    lookupProgress (setComplete p l) x = lookupProgress p x := by
  unfold setComplete lookupProgress
  by_cases h : (p.find? (fun y => y.1 = l)).isSome
  · rw [if_pos h, List.find?_map,
      find?_congr_pred p _ (fun y => y.1 = x)
        (fun y _ => by by_cases hy : y.1 = l <;> simp [Function.comp, hy])]
    cases he : p.find? (fun y => y.1 = x) with
    | none => rfl
    | some e =>
        have he1 : e.1 = x := by simpa using List.find?_some he
        have hne : ¬ (e.1 = l) := by rw [he1]; exact hx
        simp [hne]
  · rw [if_neg h, List.find?_append]
    have hsingle :
        List.find? (fun y => y.1 = x)
          [(l, ({ completed := true, watch_percentage := 100 } :
            LessonProgress))] = none := by
      simp [Ne.symm hx]
    rw [hsingle]
    simp

/-- The keys of `setComplete p l`: unchanged when `l` already had a row,
extended by `l` otherwise. -/
theorem setComplete_keys (p : List (ℕ × LessonProgress)) (l : ℕ) :
    (setComplete p l).map Prod.fst =
      if l ∈ p.map Prod.fst then p.map Prod.fst
      else p.map Prod.fst ++ [l] := by
  unfold setComplete
  have hmem : (p.find? (fun x => x.1 = l)).isSome = true ↔
      l ∈ p.map Prod.fst := by
    rw [List.find?_isSome]
    simp [eq_comm]
  by_cases h : (p.find? (fun x => x.1 = l)).isSome
  · rw [if_pos h, if_pos (hmem.mp h), List.map_map]
    apply List.map_congr_left
    intro x _
    by_cases hx : x.1 = l <;> simp [hx]
  · rw [if_neg h, if_neg (fun hm => h (hmem.mpr hm))]
    simp

/-- `setComplete` preserves distinctness of the keys. -/
theorem setComplete_keys_nodup (p : List (ℕ × LessonProgress)) (l : ℕ)
    (h : (p.map Prod.fst).Nodup) :
    ((setComplete p l).map Prod.fst).Nodup := by
  rw [setComplete_keys]
  by_cases hm : l ∈ p.map Prod.fst
  · rw [if_pos hm]; exact h
  · rw [if_neg hm]
    exact (List.Perm.nodup_iff (List.perm_append_singleton l _)).mpr
      (List.nodup_cons.mpr ⟨hm, h⟩)

/-- `setComplete` keeps the keys inside any superset containing `l`. -/
theorem setComplete_keys_subset (p : List (ℕ × LessonProgress)) (l : ℕ)
    (L : List ℕ) (hl : l ∈ L) (h : ∀ k ∈ p.map Prod.fst, k ∈ L) :
    ∀ k ∈ (setComplete p l).map Prod.fst, k ∈ L := by
  rw [setComplete_keys]
  by_cases hm : l ∈ p.map Prod.fst
  · rw [if_pos hm]; exact h
  · rw [if_neg hm]
    intro k hk
    rcases List.mem_append.mp hk with h1 | h1
    · exact h k h1
    · rw [List.mem_singleton.mp h1]; exact hl

/-- `mark_lesson_complete` never changes the course's lesson list. -/
theorem mark_lessons_eq (st : ProgressState) (l : ℕ) :
    (mark_lesson_complete st l).lessons = st.lessons := by
  unfold mark_lesson_complete
  split <;> rfl

/-- When the lesson belongs to the course, the progress table after
`mark_lesson_complete` is `setComplete`. -/
theorem mark_progress (st : ProgressState) (l : ℕ) (hl : l ∈ st.lessons) :
    (mark_lesson_complete st l).progress = setComplete st.progress l := by
  unfold mark_lesson_complete
  rw [if_pos hl]

/-- When the lesson belongs to the course, the recomputed percentage is the
completed-over-total ratio times 100 (0 guarding an empty course). -/
theorem mark_pct (st : ProgressState) (l : ℕ) (hl : l ∈ st.lessons) :
    (mark_lesson_complete st l).enrollment.progress_percentage =
      if 0 < st.lessons.length then
        (completedLessonsCount (setComplete st.progress l) : ℚ) /
          (st.lessons.length : ℚ) * 100
      else 0 := by
  unfold mark_lesson_complete
  rw [if_pos hl]

/-- `setComplete` completes its own lesson. -/
theorem completedAt_setComplete_self (p : List (ℕ × LessonProgress))
    (l : ℕ) : completedAt (setComplete p l) l :=
  ⟨{ completed := true, watch_percentage := 100 },
    lookupProgress_setComplete_self p l, rfl⟩

/-- `setComplete` never un-completes a lesson. -/
theorem completedAt_setComplete_mono (p : List (ℕ × LessonProgress))
    (l x : ℕ) (h : completedAt p x) : completedAt (setComplete p l) x := by
  by_cases hx : x = l
  · subst hx
    exact completedAt_setComplete_self p x
  · rcases h with ⟨r, hr, hc⟩
    exact ⟨r, (lookupProgress_setComplete_other p l x hx).trans hr, hc⟩

/-- With distinct keys, `find?` on a member's key returns that member. -/
theorem find?_of_mem_nodup_keys {p : List (ℕ × LessonProgress)}
    {a : ℕ × LessonProgress} (hnp : (p.map Prod.fst).Nodup) (ha : a ∈ p) :
    p.find? (fun y => y.1 = a.1) = some a := by
  induction p with
  | nil => simp at ha
  | cons b bs ih =>
      rw [List.map_cons, List.nodup_cons] at hnp
      rcases List.mem_cons.mp ha with rfl | ha'
      · rw [List.find?_cons_of_pos]
        simp
      · by_cases hb : b.1 = a.1
        · exact absurd (hb ▸ List.mem_map_of_mem Prod.fst ha') hnp.1
        · rw [List.find?_cons_of_neg _ (by simp [hb])]
          exact ih hnp.2 ha'

/-- Counting argument: when the progress keys are distinct and lie inside
the (distinct) lesson list, and every lesson has a completed row, the
number of completed rows is exactly the number of lessons. -/
theorem completedCount_of_all_complete (p : List (ℕ × LessonProgress))
    (L : List ℕ) (hsub : ∀ k ∈ p.map Prod.fst, k ∈ L)
    (hnp : (p.map Prod.fst).Nodup) (hnl : L.Nodup)
    (hall : ∀ x ∈ L, completedAt p x) :
    completedLessonsCount p = L.length := by
  have hsub2 : ∀ x ∈ L, x ∈ p.map Prod.fst := by
    intro x hx
    rcases hall x hx with ⟨r, hr, -⟩
    unfold lookupProgress at hr
    cases he : p.find? (fun y => y.1 = x) with
    | none => rw [he] at hr; simp at hr
    | some e =>
        have hkey : e.1 = x := by simpa using List.find?_some he
        exact hkey ▸ List.mem_map_of_mem Prod.fst
          (List.mem_of_find?_eq_some he)
  have hperm : (p.map Prod.fst).Perm L :=
    (List.subperm_of_subset hnp fun k hk => hsub k hk).antisymm
      (List.subperm_of_subset hnl fun x hx => hsub2 x hx)
  have hfilter : p.filter (fun x => x.2.completed) = p := by
    rw [List.filter_eq_self]
    intro a ha
    have hka : a.1 ∈ L := hsub a.1 (List.mem_map_of_mem Prod.fst ha)
    rcases hall a.1 hka with ⟨r, hr, hc⟩
    unfold lookupProgress at hr
    rw [find?_of_mem_nodup_keys hnp ha] at hr
    have : a.2 = r := by simpa using hr
    rw [this]
    exact hc
  unfold completedLessonsCount
  rw [hfilter]
  have hlen : p.length = (p.map Prod.fst).length := by simp
  rw [hlen]
  exact hperm.length_eq

/-- Folding `mark_lesson_complete` over a list of lessons of the course:
the lesson list is unchanged, the progress keys stay inside the lesson
list and stay distinct, every folded lesson ends completed, and no lesson
is un-completed. -/
theorem foldl_mark_spec (Ls : List ℕ) :
    ∀ st : ProgressState, (∀ x ∈ Ls, x ∈ st.lessons) →
      (Ls.foldl mark_lesson_complete st).lessons = st.lessons ∧
      ((∀ k ∈ st.progress.map Prod.fst, k ∈ st.lessons) →
        ∀ k ∈ (Ls.foldl mark_lesson_complete st).progress.map Prod.fst,
          k ∈ st.lessons) ∧
      ((st.progress.map Prod.fst).Nodup →
        ((Ls.foldl mark_lesson_complete st).progress.map Prod.fst).Nodup) ∧
      (∀ x ∈ Ls,
        completedAt (Ls.foldl mark_lesson_complete st).progress x) ∧
      (∀ x, completedAt st.progress x →
        completedAt (Ls.foldl mark_lesson_complete st).progress x) := by
  induction Ls with
  | nil =>
      intro st _
      exact ⟨rfl, fun h => h, fun h => h, by simp, fun x h => h⟩
  | cons l ls ih =>
      intro st h
      have hl : l ∈ st.lessons := h l (List.mem_cons_self _ _)
      have hls : ∀ x ∈ ls, x ∈ (mark_lesson_complete st l).lessons := by
        rw [mark_lessons_eq]
        exact fun x hx => h x (List.mem_cons_of_mem _ hx)
      obtain ⟨ih1, ih2, ih3, ih4, ih5⟩ := ih (mark_lesson_complete st l) hls
      rw [mark_lessons_eq] at ih1 ih2
      rw [List.foldl_cons]
      refine ⟨ih1, ?_, ?_, ?_, ?_⟩
      · intro hsub
        apply ih2
        rw [mark_progress st l hl]
        exact setComplete_keys_subset st.progress l st.lessons hl hsub
      · intro hnodup
        apply ih3
        rw [mark_progress st l hl]
        exact setComplete_keys_nodup st.progress l hnodup
      · intro x hx
        rcases List.mem_cons.mp hx with rfl | hx'
        · apply ih5
          rw [mark_progress st x hl]
          exact completedAt_setComplete_self st.progress x
        · exact ih4 x hx'
      · intro x hx
        apply ih5
        rw [mark_progress st l hl]
        exact completedAt_setComplete_mono st.progress l x hx

/-- The percentage written by the last step of the fold is the ratio of
completed rows in the final progress table over the course's lesson
count. -/
theorem foldl_mark_pct (Ls : List ℕ) :
    ∀ st : ProgressState, Ls ≠ [] → (∀ x ∈ Ls, x ∈ st.lessons) →
      (Ls.foldl mark_lesson_complete st).enrollment.progress_percentage =
        (completedLessonsCount
            (Ls.foldl mark_lesson_complete st).progress : ℚ) /
          (st.lessons.length : ℚ) * 100 := by
  induction Ls with
  | nil => intro st hne _; exact absurd rfl hne
  | cons l ls ih =>
      intro st _ h
      have hl : l ∈ st.lessons := h l (List.mem_cons_self _ _)
      rw [List.foldl_cons]
      by_cases hnil : ls = []
      · subst hnil
        rw [List.foldl_nil, mark_pct st l hl, mark_progress st l hl,
          if_pos (List.length_pos.mpr (List.ne_nil_of_mem hl))]
      · have hls : ∀ x ∈ ls, x ∈ (mark_lesson_complete st l).lessons := by
          rw [mark_lessons_eq]
          exact fun x hx => h x (List.mem_cons_of_mem _ hx)
        rw [ih (mark_lesson_complete st l) hnil hls, mark_lessons_eq]

/-- C1: for an enrollment whose progress rows belong to the course's
lessons (with distinct keys and distinct lessons), marking a lesson of the
course complete sets that lesson's row to completed with
`watch_percentage` 100 and recomputes the enrollment's
`progress_percentage` as completed-rows over total-lessons times 100
(0 when the course has no lessons); and after marking every lesson of the
course complete the percentage is exactly 100. -/
theorem C1_mark_lesson_complete_progress (st : ProgressState) (l : ℕ)
    (hl : l ∈ st.lessons)
    (hkeys : ∀ k ∈ st.progress.map Prod.fst, k ∈ st.lessons)
    (hnodupP : (st.progress.map Prod.fst).Nodup)
    (hnodupL : st.lessons.Nodup) :
    lookupProgress (mark_lesson_complete st l).progress l =
      some { completed := true, watch_percentage := 100 } ∧
    (mark_lesson_complete st l).enrollment.progress_percentage =
      (if 0 < st.lessons.length then
        (completedLessonsCount (mark_lesson_complete st l).progress : ℚ) /
          (st.lessons.length : ℚ) * 100
      else 0) ∧
    (markAllLessonsComplete st).enrollment.progress_percentage = 100 := by
  refine ⟨?_, ?_, ?_⟩
  · rw [mark_progress st l hl]
    exact lookupProgress_setComplete_self st.progress l
  · rw [mark_pct st l hl, mark_progress st l hl]
  · unfold markAllLessonsComplete
    have hne : st.lessons ≠ [] := List.ne_nil_of_mem hl
    rw [foldl_mark_pct st.lessons st hne (fun x hx => hx)]
    obtain ⟨-, h2, h3, h4, -⟩ := foldl_mark_spec st.lessons st (fun x hx => hx)
    rw [completedCount_of_all_complete _ st.lessons (h2 hkeys) (h3 hnodupP)
      hnodupL h4]
    have hpos : ((st.lessons.length : ℚ)) ≠ 0 := by
      exact_mod_cast Nat.pos_iff_ne_zero.mp
        (List.length_pos.mpr hne) ∘ fun hc => hc
    rw [div_self hpos, one_mul]

/-- Witness for `C1_mark_lesson_complete_progress` on a concrete two-lesson
course with a fresh enrollment. -/
theorem C1_mark_lesson_complete_progress_witness :
    (1 ∈ progressState0.lessons) ∧
    (lookupProgress (mark_lesson_complete progressState0 1).progress 1 =
        some { completed := true, watch_percentage := 100 } ∧
      (mark_lesson_complete progressState0 1).enrollment.progress_percentage =
        (if 0 < progressState0.lessons.length then
          (completedLessonsCount
              (mark_lesson_complete progressState0 1).progress : ℚ) /
            (progressState0.lessons.length : ℚ) * 100
        else 0) ∧
      (markAllLessonsComplete progressState0).enrollment.progress_percentage =
        100) :=
  ⟨by decide,
    C1_mark_lesson_complete_progress progressState0 1 (by decide)
      (by intro k hk; simp [progressState0] at hk) (by decide) (by decide)⟩

end CoursePlatform
